import Mathlib

/-!
# A verification development for `Shell.c`

A shallow embedding of the command interpreter in `src/Shell.c`:

* C strings are lists of characters (`Str`), without the terminating NUL;
* the global `prev_dir` and the process working directory form `DirState`;
* the operating system is a parameter (`World`): how `chdir` resolves a path,
  the value of `HOME`, whether `fork` succeeds, how long a program runs;
* what a function prints and which system calls it makes is returned as a
  list of `Event`s;
* a write past the end of a fixed array, or a `strcmp` on a NULL pointer, is
  a `Halt`.
-/

namespace ShellC

/-- A C string: its characters up to, not including, the terminating NUL. -/
abbrev Str := List Char

/-! ## Observable events -/

/-- What the shell process does that can be observed from outside. -/
inductive Event where
  /-- Output of `printf`. -/
  | printf (text : String)
  /-- Output of `perror` with this prefix. -/
  | perror (text : String)
  /-- A call `chdir(path)` and whether it returned 0; `none` is a NULL path. -/
  | chdir (path : Option Str) (ok : Bool)
  /-- A call `pipe(pipefd)`. -/
  | pipe
  /-- A call `fork()` that returned `pid` in the parent: the child runs
  `execvp(args[0], args)`. -/
  | fork (pid : Nat) (args : List Str)
  /-- A call `fork()` that returned a negative value. -/
  | forkFailed
  /-- A call `close(fd)` in the parent. -/
  | close
  /-- A call `wait(NULL)` that returned having reaped `pid` (`none`: no child). -/
  | wait (pid : Option Nat)
  /-- A call `waitpid(pid, NULL, 0)` that returned. -/
  | waitpid (pid : Nat)
  deriving DecidableEq, Repr

/-- Why a run of the embedded code yields no result. The first three are
undefined behaviour of the C program. -/
inductive Halt where
  /-- A write `history[history_count++]` with `history_count >= 100`. -/
  | historyOverflow
  /-- A write `args[i]` with `i >= 100`. -/
  | argsOverflow
  /-- A call `strcmp(args[0], ...)` with `args[0] == NULL`. -/
  | nullArg0
  /-- A `wait` or `waitpid` that never returns. -/
  | blocked
  /-- The loop bound of the embedding was reached (never, for the fuel `tokenize` gives). -/
  | outOfFuel
  deriving DecidableEq, Repr

deriving instance DecidableEq for Except

/-! ## The operating system, as far as the shell can tell -/

/-- The environment of the shell process. -/
structure World where
  /-- The value of `getenv("HOME")`; `none` when unset. -/
  home : Option Str
  /-- The call `chdir(path)` made from working directory `cwd`: the new
  working directory (as `getcwd` reports it) on success, `none` on failure. -/
  chdir : (cwd : Str) → (path : Str) → Option Str
  /-- Whether the `fork()` that would create child `pid` succeeds. -/
  forkOk : (pid : Nat) → Bool
  /-- For how long a child started with this argument vector runs before it
  terminates (an `execvp` that fails terminates at once); `none`: forever. -/
  lifetime : (args : List Str) → Option Nat

/-- The library call `getcwd(buf, size)`: fails when the directory name with its
terminating NUL does not fit in `size` bytes. -/
def getcwd (cwd : Str) (size : Nat) : Option Str :=
  if cwd.length + 1 ≤ size then some cwd else none

/-! ## `change_directory` -/

/-- The working directory of the process and the global `prev_dir`
(`char prev_dir[1024] = ""`). -/
structure DirState where
  cwd : Str
  prev_dir : Str
  deriving DecidableEq, Repr

/-- The string `"~"`. -/
def tilde : Str := ['~']

/-- The string `"-"`. -/
def dash : Str := ['-']

/-- Lines 79-82: when `path` starts and ends with a double quote, the last
character is overwritten with NUL and the pointer moves past the first. -/
def stripQuotes (path : Str) : Str :=
  if path.head? = some '"' ∧ path.getLast? = some '"' then path.dropLast.drop 1 else path

/-- Lines 113-115: `chdir(path)`, with `perror("Invalid Command")` on failure. -/
def doChdir (W : World) (s : DirState) (path : Option Str) : DirState × List Event :=
  match path.bind (W.chdir s.cwd) with
  | some d => ({ s with cwd := d }, [Event.chdir path true])
  | none => (s, [Event.chdir path false, Event.perror "Invalid Command"])

/-- The function `change_directory(path)`, lines 72-116. -/
def change_directory (W : World) (s : DirState) (path : Str) : DirState × List Event :=
  let path := stripQuotes path
  match getcwd s.cwd 1024 with
  | none => (s, [Event.perror "getcwd failed"])
  | some current_dir =>
    if path = tilde then
      doChdir W s W.home
    else if path = dash then
      if s.prev_dir.length = 0 then
        (s, [Event.printf "No previous directory\n"])
      else
        let temp_dir := s.prev_dir
        doChdir W { s with prev_dir := current_dir } (some temp_dir)
    else
      doChdir W { s with prev_dir := current_dir } (some path)

/-- The call performed a `chdir` that returned 0. -/
def changed (r : DirState × List Event) : Bool :=
  r.2.any fun e => match e with
    | Event.chdir _ true => true
    | _ => false

/-- The call performed a `chdir` that failed. -/
def changeFailed (r : DirState × List Event) : Bool :=
  r.2.any fun e => match e with
    | Event.chdir _ false => true
    | _ => false

/-- The call made no `chdir` at all. -/
def noChdir (r : DirState × List Event) : Bool :=
  r.2.all fun e => match e with
    | Event.chdir _ _ => false
    | _ => true

/-! ## `strtok` and the argument vectors -/

/-- Membership of a character in a delimiter string, as `strtok` tests it. -/
def isDelim (delim : Str) (c : Char) : Bool := delim.contains c

/-- One call of `strtok` on the text still to scan: leading delimiters are
skipped; at the end of the text the result is NULL (`none`); otherwise the
token runs up to the next delimiter, which is overwritten with NUL, and the scan
resumes after it. The result is the token and the text left to scan. -/
def strtok (delim : Str) (s : Str) : Option (Str × Str) :=
  match s.dropWhile (isDelim delim) with
  | [] => none
  | c :: cs =>
    some ((c :: cs).takeWhile (fun x => !isDelim delim x),
          ((c :: cs).dropWhile (fun x => !isDelim delim x)).drop 1)

/-- The loop `while (token != NULL) { args[i++] = token; token = strtok(NULL, delim); }`
followed by `args[i] = NULL`, on an array `char *args[100]`: `token` is the
pending result of `strtok`, `args` the entries `0 .. i-1` stored so far. -/
def storeTokens (delim : Str) : (fuel : Nat) → (token : Option (Str × Str)) → (i : Nat) →
    (args : List Str) → Except Halt (List Str)
  | 0, _, _, _ => .error Halt.outOfFuel
  | _ + 1, none, i, args => if i < 100 then .ok args else .error Halt.argsOverflow
  | fuel + 1, some (tok, rest), i, args =>
    if i < 100 then storeTokens delim fuel (strtok delim rest) (i + 1) (args ++ [tok])
    else .error Halt.argsOverflow

/-- The tokenizing code of `main` (lines 252-259) and of `handle_pipe` (lines
135-143, 145-152): the argument vector without its NULL sentinel. -/
def tokenize (delim : Str) (s : Str) : Except Halt (List Str) :=
  storeTokens delim (s.length + 2) (strtok delim s) 0 []

/-- The delimiter string `" "` of `main`. -/
def spaceDelim : Str := [' ']

/-- The delimiter string `" \n"` of `handle_pipe`. -/
def spaceNewline : Str := [' ', '\n']

/-- The delimiter string `"|"` of `handle_pipe`. -/
def barDelim : Str := ['|']

/-- Lines 242-248: the background flag and the line without its trailing `&`. -/
def stripAmp (input : Str) : Bool × Str :=
  if input.getLast? = some '&' then (true, input.dropLast) else (false, input)

/-- Lines 242-259 of `main`: background flag and argument vector of a line. -/
def tokenizeLine (input : Str) : Except Halt (Bool × List Str) :=
  match tokenize spaceDelim (stripAmp input).2 with
  | .ok args => .ok ((stripAmp input).1, args)
  | .error h => .error h

/-! ## Child processes -/

/-- A child of the shell that has not been reaped. -/
structure Child where
  pid : Nat
  /-- The argument vector given to `execvp`. -/
  args : List Str
  /-- The time at which it terminates; `none`: never. -/
  exitAt : Option Nat
  deriving DecidableEq, Repr

/-- The children of the shell process and the clock. -/
structure Kernel where
  now : Nat
  children : List Child
  nextPid : Nat
  deriving DecidableEq, Repr

/-- The child has terminated by the time of `k`. -/
def Child.terminated (c : Child) (k : Kernel) : Bool :=
  match c.exitAt with
  | some t => decide (t ≤ k.now)
  | none => false

/-- The call `fork()` in the parent: the new child and the kernel with it, or
`none` when the call fails. -/
def fork (W : World) (k : Kernel) (args : List Str) : Option (Child × Kernel) :=
  if W.forkOk k.nextPid then
    let c : Child := ⟨k.nextPid, args, (W.lifetime args).map (k.now + ·)⟩
    some (c, { k with children := k.children ++ [c], nextPid := k.nextPid + 1 })
  else none

/-- The child that terminates first, the earliest in the list among equals. -/
def firstExit : List Child → Option (Nat × Child)
  | [] => none
  | c :: cs =>
    match c.exitAt, firstExit cs with
    | none, r => r
    | some t, none => some (t, c)
    | some t, some (u, d) => if t ≤ u then some (t, c) else some (u, d)

/-- The call `wait(NULL)`: without children it returns at once; when a child
has already terminated it returns at once and reaps the first such child in
fork order; otherwise it returns when the first child terminates and reaps that
child. The result is the kernel on return and the child reaped. -/
def wait (k : Kernel) : Except Halt (Kernel × Option Nat) :=
  match k.children with
  | [] => .ok (k, none)
  | _ :: _ =>
    match k.children.find? (fun c => c.terminated k) with
    | some c =>
      .ok ({ k with children := k.children.filter (fun d => d.pid ≠ c.pid) }, some c.pid)
    | none =>
      match firstExit k.children with
      | none => .error Halt.blocked
      | some (t, c) =>
        .ok ({ k with now := max k.now t,
                      children := k.children.filter (fun d => d.pid ≠ c.pid) },
             some c.pid)

/-- The call `waitpid(pid, NULL, 0)`: returns when that child has terminated and
reaps it; at once when there is no such child. -/
def waitpid (k : Kernel) (pid : Nat) : Except Halt Kernel :=
  match k.children.find? (fun d => d.pid = pid) with
  | none => .ok k
  | some c =>
    match c.exitAt with
    | none => .error Halt.blocked
    | some t =>
      .ok { k with now := max k.now t, children := k.children.filter (fun d => d.pid ≠ pid) }

/-- The function `execute_command(args, background)`, lines 48-67, in the
parent: the kernel when it returns, the child created, and the events. -/
def execute_command (W : World) (k : Kernel) (args : List Str) (background : Bool) :
    Except Halt (Kernel × Option Child × List Event) :=
  match fork W k args with
  | none => .ok (k, none, [Event.forkFailed, Event.perror "fork failed"])
  | some (c, k1) =>
    if !background then
      match wait k1 with
      | .ok (k2, r) => .ok (k2, some c, [Event.fork c.pid args, Event.wait r])
      | .error h => .error h
    else
      .ok (k1, some c, [Event.fork c.pid args])

/-- The function `handle_pipe(input)`, lines 121-195, in the parent. -/
def handle_pipe (W : World) (k : Kernel) (input : Str) : Except Halt (Kernel × List Event) :=
  let command1 := strtok barDelim input
  let command2 := strtok barDelim (match command1 with
    | some (_, rest) => rest
    | none => [])
  match command1, command2 with
  | some (c1, _), some (c2, _) =>
    match tokenize spaceNewline c1, tokenize spaceNewline c2 with
    | .error h, _ => .error h
    | .ok _, .error h => .error h
    | .ok args1, .ok args2 =>
      match fork W k args1 with
      | none => .ok (k, [Event.pipe, Event.forkFailed, Event.perror "fork failed"])
      | some (p1, k1) =>
        match fork W k1 args2 with
        | none =>
          .ok (k1, [Event.pipe, Event.fork p1.pid args1, Event.forkFailed,
                    Event.perror "fork failed"])
        | some (p2, k2) =>
          match waitpid k2 p1.pid with
          | .error h => .error h
          | .ok k3 =>
            match waitpid k3 p2.pid with
            | .error h => .error h
            | .ok k4 =>
              .ok (k4, [Event.pipe, Event.fork p1.pid args1, Event.fork p2.pid args2,
                        Event.close, Event.close, Event.waitpid p1.pid, Event.waitpid p2.pid])
  | _, _ => .ok (k, [Event.printf "Invalid pipe syntax\n"])

/-! ## The read loop of `main` -/

/-- The string `"exit"`. -/
def s_exit : Str := ['e', 'x', 'i', 't']

/-- The string `"cd"`. -/
def s_cd : Str := ['c', 'd']

/-- The string `"history"`. -/
def s_history : Str := ['h', 'i', 's', 't', 'o', 'r', 'y']

/-- Which way one pass of the loop body goes. -/
inductive Branch where
  /-- Line 222: `continue` on an empty line. -/
  | skip
  /-- Line 228: `handle_pipe(input)`. -/
  | pipe (input : Str)
  /-- Line 235: `break`. -/
  | exit
  /-- Line 264: `change_directory(args[1])`. -/
  | cd (path : Str)
  /-- Line 266: `printf("cd: missing argument\n")`. -/
  | cdMissing
  /-- Lines 270-272: the history is printed. -/
  | history
  /-- Line 275: `execute_command(args, background)`. -/
  | exec (args : List Str) (background : Bool)
  deriving DecidableEq, Repr

/-- Line 217: `input[strcspn(input, "\n")] = 0`. -/
def chomp (raw : Str) : Str := raw.takeWhile (fun c => c ≠ '\n')

/-- The control flow of the loop body, lines 217-276, for the buffer `raw` that
`fgets` filled, with `history_count` entries recorded so far. -/
def dispatch (history_count : Nat) (raw : Str) : Except Halt Branch :=
  let input := chomp raw
  if input.length = 0 then .ok Branch.skip
  else if '|' ∈ input then .ok (Branch.pipe input)
  else if input = s_exit then .ok Branch.exit
  else if ¬ history_count < 100 then .error Halt.historyOverflow
  else
    match tokenizeLine input with
    | .error h => .error h
    | .ok (_, []) => .error Halt.nullArg0
    | .ok (background, a0 :: rest) =>
      if a0 = s_cd then
        match rest with
        | a1 :: _ => .ok (Branch.cd a1)
        | [] => .ok Branch.cdMissing
      else if a0 = s_history then .ok Branch.history
      else .ok (Branch.exec (a0 :: rest) background)

/-- The state of the interpreter between two passes of the loop. -/
structure MainState where
  /-- The entries `history[0 .. history_count-1]`. -/
  history : List Str
  dir : DirState
  kern : Kernel
  /-- Everything done so far. -/
  out : List Event
  deriving DecidableEq, Repr

/-- One pass of the loop body of `main` on the buffer `raw`: the next state and
whether the loop goes on. -/
def loop_body (W : World) (st : MainState) (raw : Str) : Except Halt (MainState × Bool) :=
  match dispatch st.history.length raw with
  | .error h => .error h
  | .ok Branch.skip => .ok (st, true)
  | .ok Branch.exit => .ok (st, false)
  | .ok (Branch.pipe input) =>
    match handle_pipe W st.kern input with
    | .error h => .error h
    | .ok (k, ev) => .ok ({ st with kern := k, out := st.out ++ ev }, true)
  | .ok (Branch.cd path) =>
    let r := change_directory W st.dir path
    .ok ({ st with history := st.history ++ [chomp raw], dir := r.1, out := st.out ++ r.2 }, true)
  | .ok Branch.cdMissing =>
    .ok ({ st with history := st.history ++ [chomp raw],
                   out := st.out ++ [Event.printf "cd: missing argument\n"] }, true)
  | .ok Branch.history =>
    .ok ({ st with history := st.history ++ [chomp raw],
                   out := st.out ++ (st.history ++ [chomp raw]).map
                     (fun l => Event.printf (String.mk l ++ "\n")) }, true)
  | .ok (Branch.exec args background) =>
    match execute_command W st.kern args background with
    | .error h => .error h
    | .ok (k, _, ev) =>
      .ok ({ st with history := st.history ++ [chomp raw], kern := k, out := st.out ++ ev }, true)

/-- The loop of `main` over the buffers that `fgets` delivers, until `break` or
end of input. -/
def main (W : World) : MainState → List Str → Except Halt MainState
  | st, [] => .ok st
  | st, raw :: more =>
    match loop_body W st raw with
    | .error h => .error h
    | .ok (st1, true) => main W st1 more
    | .ok (st1, false) => .ok st1

/-- The interpreter at start-up in directory `cwd`: `prev_dir` is `""`. -/
def initial (cwd : Str) : MainState :=
  ⟨[], ⟨cwd, []⟩, ⟨0, [], 1⟩, []⟩

/-! ## Sequences of `cd` commands and sample data -/

/-- The directory state after `cd` commands with these arguments, in order. -/
def cdRun (W : World) : DirState → List Str → DirState
  | s, [] => s
  | s, a :: more => cdRun W (change_directory W s a).1 more

/-- Every one of these `cd` commands, run in order, changed the directory. -/
def allChanged (W : World) : DirState → List Str → Bool
  | _, [] => true
  | s, a :: more =>
    changed (change_directory W s a) && allChanged W (change_directory W s a).1 more

/-- A world where `HOME` is `/root`, every `chdir` to an absolute path succeeds
and arrives there, every other `chdir` fails, every `fork` succeeds, a program
with a single one-digit argument runs for that many time units (as `sleep`
does), and every other program terminates at once. -/
def demoWorld : World :=
  ⟨some ['/', 'r', 'o', 'o', 't'],
   fun _ p => if p.head? = some '/' then some p else none,
   fun _ => true,
   fun args => match args with
     | [_, [d]] => some (d.toNat - '0'.toNat)
     | _ => some 0⟩

/-- The directory `/tmp`. -/
def d_tmp : Str := ['/', 't', 'm', 'p']

/-- The directory `/`. -/
def d_root : Str := ['/']

/-- A directory whose name has 1024 characters: four components of 255. -/
def d_long : Str := (List.replicate 4 ('/' :: List.replicate 255 'a')).flatten

/-! ## What the specification says of the tokenizer -/

/-- The maximal runs of characters of `s` that are not in `delim`, in order:
the pieces between delimiters, without the empty ones. -/
def runs (delim : Str) (s : Str) : List Str :=
  (s.splitOnP (isDelim delim)).filter (fun t => !t.isEmpty)

/-- The maximal runs of non-whitespace characters of `s`, in order. -/
def whitespaceRuns (s : Str) : List Str :=
  (s.splitOnP Char.isWhitespace).filter (fun t => !t.isEmpty)

/-- The tokens joined with single spaces. -/
def joinSpaces (toks : List Str) : Str := List.intercalate [' '] toks

/-! ## Sample lines -/

/-- The word `sleep`. -/
def s_sleep : Str := ['s', 'l', 'e', 'e', 'p']

/-- The word `cat`. -/
def s_cat : Str := ['c', 'a', 't']

/-- The line `sleep 1 &`, as `fgets` delivers it. -/
def l_sleep1_bg : Str := s_sleep ++ [' ', '1', ' ', '&', '\n']

/-- The line `sleep 5`, as `fgets` delivers it. -/
def l_sleep5 : Str := s_sleep ++ [' ', '5', '\n']

/-- The line `exit` followed by one space, as `fgets` delivers it. -/
def l_exit_space : Str := s_exit ++ [' ', '\n']

/-- The line `exit`, as `fgets` delivers it. -/
def l_exit : Str := s_exit ++ ['\n']

/-- The line `exit now`, as `fgets` delivers it. -/
def l_exit_now : Str := s_exit ++ [' ', 'n', 'o', 'w', '\n']

/-- The line `history` followed by one space, as `fgets` delivers it. -/
def l_history_space : Str := s_history ++ [' ', '\n']

/-- The line `cd /` followed by one space, as `fgets` delivers it. -/
def l_cd_root_space : Str := s_cd ++ [' ', '/', ' ', '\n']

/-- The line `cd`, as `fgets` delivers it. -/
def l_cd : Str := s_cd ++ ['\n']

/-- A line of 100 words `a`, each followed by a space (200 characters), as
`fgets` delivers it. -/
def l_hundred : Str := (List.replicate 100 ['a', ' ']).flatten ++ ['\n']

/-- The line of a space, `|`, a space and `cat`. -/
def l_blank_pipe_cat : Str := [' ', '|', ' '] ++ s_cat

/-- The line `| cat`. -/
def l_pipe_cat : Str := ['|', ' '] ++ s_cat

/-! # Theorems

## `change_directory` -/

/-- A successful `getcwd` returns the working directory. -/
theorem getcwd_some {cwd : Str} {size : Nat} {d : Str} (h : getcwd cwd size = some d) :
    d = cwd := by
  unfold getcwd at h
  split at h
  · exact (Option.some.inj h).symm
  · exact absurd h (by simp)

/-- The `chdir` step changes the directory exactly when the world lets it. -/
theorem changed_doChdir (W : World) (s : DirState) (p : Option Str) :
    changed (doChdir W s p) = true ↔ ∃ d, p.bind (W.chdir s.cwd) = some d := by
  unfold doChdir changed
  cases h : p.bind (W.chdir s.cwd) <;> simp

/-- What a `cd` with a literal path does when it changes the directory. -/
theorem cd_literal_changed (W : World) (s : DirState) (arg : Str)
    (h1 : stripQuotes arg ≠ tilde) (h2 : stripQuotes arg ≠ dash)
    (hc : changed (change_directory W s arg) = true) :
    ∃ d, W.chdir s.cwd (stripQuotes arg) = some d ∧ change_directory W s arg =
      (⟨d, s.cwd⟩, [Event.chdir (some (stripQuotes arg)) true]) := by
  unfold change_directory at hc ⊢
  cases hg : getcwd s.cwd 1024 with
  | none => simp [hg, changed] at hc
  | some cur =>
    have hcur := getcwd_some hg
    subst hcur
    simp only [hg, h1, h2, if_false] at hc ⊢
    rw [changed_doChdir] at hc
    obtain ⟨d, hd⟩ := hc
    refine ⟨d, by simpa using hd, ?_⟩
    simp [doChdir, hd]

/-- What `cd -` does when it changes the directory. -/
theorem cd_dash_changed (W : World) (s : DirState)
    (hc : changed (change_directory W s dash) = true) :
    ∃ d, W.chdir s.cwd s.prev_dir = some d ∧ change_directory W s dash =
      (⟨d, s.cwd⟩, [Event.chdir (some s.prev_dir) true]) := by
  have hq : stripQuotes dash = dash := by decide
  have hne : dash ≠ tilde := by decide
  unfold change_directory at hc ⊢
  cases hg : getcwd s.cwd 1024 with
  | none => simp [hg, changed] at hc
  | some cur =>
    have hcur := getcwd_some hg
    subst hcur
    simp only [hg, hq, hne, if_false, if_true] at hc ⊢
    by_cases hp : s.prev_dir.length = 0
    · simp [hp, changed] at hc
    · simp only [hp, if_false] at hc ⊢
      rw [changed_doChdir] at hc
      obtain ⟨d, hd⟩ := hc
      refine ⟨d, by simpa using hd, ?_⟩
      simp [doChdir, hd]

/-- C1: toggle property of `change_directory`. Start in directory `A`; let a
`cd` with a literal argument (after quote removal neither `~` nor `-`) arrive in
directory `B`, and let it and the two following `cd -` each change the directory
(`A` and `B` being names at which a successful `chdir` to them arrives). Then
after the first command the slot holds `A`; after the first `cd -` the working
directory is `A` and the slot holds `B`; after the second `cd -` the working
directory is `B` and the slot holds `A` again. -/
theorem cd_toggle (W : World) (A B slot arg : Str)
    (hlit : stripQuotes arg ≠ tilde ∧ stripQuotes arg ≠ dash)
    (hA : ∀ c d, W.chdir c A = some d → d = A)
    (hB : ∀ c d, W.chdir c B = some d → d = B)
    (hok : allChanged W ⟨A, slot⟩ [arg, dash, dash] = true)
    (hto : (cdRun W ⟨A, slot⟩ [arg]).cwd = B) :
    cdRun W ⟨A, slot⟩ [arg] = ⟨B, A⟩ ∧
    cdRun W ⟨A, slot⟩ [arg, dash] = ⟨A, B⟩ ∧
    cdRun W ⟨A, slot⟩ [arg, dash, dash] = ⟨B, A⟩ := by
  simp only [allChanged, Bool.and_eq_true, Bool.and_true] at hok
  simp only [cdRun] at hto ⊢
  obtain ⟨ok1, ok2, ok3⟩ := hok
  obtain ⟨d1, -, e1⟩ := cd_literal_changed W ⟨A, slot⟩ arg hlit.1 hlit.2 ok1
  rw [e1] at hto ok2 ok3 ⊢
  simp only at hto
  subst hto
  obtain ⟨d2, hd2, e2⟩ := cd_dash_changed W _ ok2
  have := hA _ _ hd2
  subst this
  rw [e2] at ok3 ⊢
  obtain ⟨d3, hd3, e3⟩ := cd_dash_changed W _ ok3
  have := hB _ _ hd3
  subst this
  rw [e3]
  exact ⟨rfl, rfl, rfl⟩

/-- C1 at `A = /tmp`, `B = /`: `cd /`, `cd -`, `cd -`. -/
theorem cd_toggle_witness :
    cdRun demoWorld ⟨d_tmp, []⟩ [d_root] = ⟨d_root, d_tmp⟩ ∧
    cdRun demoWorld ⟨d_tmp, []⟩ [d_root, dash] = ⟨d_tmp, d_root⟩ ∧
    cdRun demoWorld ⟨d_tmp, []⟩ [d_root, dash, dash] = ⟨d_root, d_tmp⟩ :=
  cd_toggle demoWorld d_tmp d_root [] d_root (by decide)
    (by intro c d h; simp [demoWorld, d_tmp] at h; exact h.symm)
    (by intro c d h; simp [demoWorld, d_root] at h; exact h.symm)
    (by decide) (by decide)

/-- The result of the `chdir` step when the change fails. -/
theorem doChdir_failed (W : World) (s : DirState) (p : Option Str)
    (h : changeFailed (doChdir W s p) = true) :
    doChdir W s p = (s, [Event.chdir p false, Event.perror "Invalid Command"]) := by
  unfold doChdir changeFailed at *
  cases hb : p.bind (W.chdir s.cwd) <;> simp_all

/-- C2: failure policy of `change_directory`. For every `cd` whose argument,
after quote removal, is not `~` (a literal path, or `-`), if the call reaches
`chdir` and `chdir` fails, then `Invalid Command` is reported, the working
directory is unchanged, and the previous-directory slot holds the working
directory at invocation time. -/
theorem cd_failure_policy (W : World) (s : DirState) (arg : Str)
    (hlit : stripQuotes arg ≠ tilde)
    (hfail : changeFailed (change_directory W s arg) = true) :
    Event.perror "Invalid Command" ∈ (change_directory W s arg).2 ∧
    (change_directory W s arg).1.cwd = s.cwd ∧
    (change_directory W s arg).1.prev_dir = s.cwd := by
  unfold change_directory at hfail ⊢
  cases hg : getcwd s.cwd 1024 with
  | none => simp [hg, changeFailed] at hfail
  | some cur =>
    have hcur := getcwd_some hg
    subst hcur
    simp only [hg, hlit, if_false] at hfail ⊢
    by_cases hd : stripQuotes arg = dash
    · simp only [hd, if_true] at hfail ⊢
      by_cases hp : s.prev_dir.length = 0
      · simp [hp, changeFailed] at hfail
      · simp only [hp, if_false] at hfail ⊢
        rw [doChdir_failed W _ _ hfail]
        simp
    · simp only [hd, if_false] at hfail ⊢
      rw [doChdir_failed W _ _ hfail]
      simp

/-- C2 at `cd nowhere` from `/tmp`, and at a failing `cd -` from `/tmp` with `nowhere`
recorded: both are reported and leave `/tmp` in the slot. -/
theorem cd_failure_policy_witness :
    (Event.perror "Invalid Command" ∈ (change_directory demoWorld ⟨d_tmp, []⟩ ['x']).2 ∧
      (change_directory demoWorld ⟨d_tmp, []⟩ ['x']).1.cwd = d_tmp ∧
      (change_directory demoWorld ⟨d_tmp, []⟩ ['x']).1.prev_dir = d_tmp) ∧
    (Event.perror "Invalid Command" ∈ (change_directory demoWorld ⟨d_tmp, ['x']⟩ dash).2 ∧
      (change_directory demoWorld ⟨d_tmp, ['x']⟩ dash).1.cwd = d_tmp ∧
      (change_directory demoWorld ⟨d_tmp, ['x']⟩ dash).1.prev_dir = d_tmp) :=
  ⟨cd_failure_policy demoWorld ⟨d_tmp, []⟩ ['x'] (by decide) (by decide),
   cd_failure_policy demoWorld ⟨d_tmp, ['x']⟩ dash (by decide) (by decide)⟩

/-- C3: `cd ~` does not record the directory it leaves. At start-up in `/tmp`
(slot empty) with `HOME=/root`, `cd ~` arrives in `/root` and the slot is still
empty, so the following `cd -` reports `No previous directory` and stays in
`/root`; and in every state `cd ~` leaves the slot as it was. -/
theorem cd_tilde_leaves_prev_dir :
    change_directory demoWorld ⟨d_tmp, []⟩ tilde =
      (⟨['/', 'r', 'o', 'o', 't'], []⟩, [Event.chdir (some ['/', 'r', 'o', 'o', 't']) true]) ∧
    change_directory demoWorld (change_directory demoWorld ⟨d_tmp, []⟩ tilde).1 dash =
      (⟨['/', 'r', 'o', 'o', 't'], []⟩, [Event.printf "No previous directory\n"]) ∧
    ∀ (W : World) (s : DirState), (change_directory W s tilde).1.prev_dir = s.prev_dir := by
  refine ⟨by decide, by decide, ?_⟩
  intro W s
  have hq : stripQuotes tilde = tilde := by decide
  unfold change_directory
  cases hg : getcwd s.cwd 1024 with
  | none => simp
  | some cur =>
    simp only [hq, if_true]
    unfold doChdir
    cases W.home.bind (W.chdir s.cwd) <;> simp

/-- The directory `d_long` has 1024 characters. -/
theorem d_long_length : d_long.length = 1024 := by
  unfold d_long
  simp only [List.length_flatten, List.map_replicate, List.length_cons, List.length_replicate,
    List.sum_replicate, smul_eq_mul]

/-- C4, as stated, fails where `getcwd` fails: in a working directory whose name
has 1024 characters, `cd -` with an empty slot reports `getcwd failed` and not
`No previous directory`. -/
theorem cd_dash_getcwd_failed :
    (⟨d_long, []⟩ : DirState).prev_dir = [] ∧
    change_directory demoWorld ⟨d_long, []⟩ dash = (⟨d_long, []⟩, [Event.perror "getcwd failed"]) ∧
    Event.printf "No previous directory\n" ∉ (change_directory demoWorld ⟨d_long, []⟩ dash).2 := by
  have h : change_directory demoWorld ⟨d_long, []⟩ dash =
      (⟨d_long, []⟩, [Event.perror "getcwd failed"]) := by
    simp [change_directory, getcwd, d_long_length]
  refine ⟨rfl, h, ?_⟩
  rw [h]
  simp

/-- C4, amended: `cd -` with an empty slot leaves the working directory and the
slot unchanged and makes no `chdir`; it reports `No previous directory` when
`getcwd` succeeds; and `cd -` reports `No previous directory` only when the slot
is empty. -/
theorem cd_dash_no_previous (W : World) (s : DirState) :
    (s.prev_dir = [] → (change_directory W s dash).1 = s ∧
      noChdir (change_directory W s dash) = true) ∧
    (s.prev_dir = [] → getcwd s.cwd 1024 = some s.cwd →
      change_directory W s dash = (s, [Event.printf "No previous directory\n"])) ∧
    (Event.printf "No previous directory\n" ∈ (change_directory W s dash).2 →
      s.prev_dir = []) := by
  have hq : stripQuotes dash = dash := by decide
  have hne : dash ≠ tilde := by decide
  refine ⟨?_, ?_, ?_⟩
  · intro hp
    unfold change_directory
    cases hg : getcwd s.cwd 1024 <;> simp [hq, hne, hp, noChdir]
  · intro hp hg
    unfold change_directory
    simp [hg, hq, hne, hp]
  · unfold change_directory
    cases hg : getcwd s.cwd 1024 with
    | none => simp
    | some cur =>
      simp only [hq, hne, if_false, if_true]
      by_cases hp : s.prev_dir.length = 0
      · intro _
        exact List.length_eq_zero.mp hp
      · simp only [hp, if_false]
        unfold doChdir
        cases (some s.prev_dir).bind (W.chdir s.cwd) <;> simp

/-- C4, amended, at start-up in `/tmp`. -/
theorem cd_dash_no_previous_witness :
    (change_directory demoWorld ⟨d_tmp, []⟩ dash).1 = ⟨d_tmp, []⟩ ∧
    noChdir (change_directory demoWorld ⟨d_tmp, []⟩ dash) = true ∧
    change_directory demoWorld ⟨d_tmp, []⟩ dash =
      (⟨d_tmp, []⟩, [Event.printf "No previous directory\n"]) ∧
    (⟨d_tmp, []⟩ : DirState).prev_dir = [] :=
  have h := cd_dash_no_previous demoWorld ⟨d_tmp, []⟩
  ⟨(h.1 rfl).1, (h.1 rfl).2, h.2.1 rfl (by decide), h.2.2 (by decide)⟩

/-! ## The tokenizer -/

/-- A leading delimiter contributes no run. -/
theorem runs_cons_delim (delim : Str) (c : Char) (s : Str) (h : isDelim delim c = true) :
    runs delim (c :: s) = runs delim s := by
  simp [runs, List.splitOnP_cons, h]

/-- Leading delimiters contribute no run. -/
theorem runs_dropWhile (delim : Str) (s : Str) :
    runs delim (s.dropWhile (isDelim delim)) = runs delim s := by
  induction s with
  | nil => rfl
  | cons c cs ih =>
    by_cases h : isDelim delim c = true
    · rw [List.dropWhile_cons_of_pos h, ih, runs_cons_delim delim c cs h]
    · rw [List.dropWhile_cons_of_neg h]

/-- The first run of a text that starts with a non-delimiter, and the rest. -/
theorem runs_cons_token (delim : Str) (c : Char) (cs : Str) (h : isDelim delim c = false) :
    runs delim (c :: cs) =
      (c :: cs).takeWhile (fun x => !isDelim delim x) ::
        runs delim (((c :: cs).dropWhile (fun x => !isDelim delim x)).drop 1) := by
  have hsplit := List.takeWhile_append_dropWhile (fun x => !isDelim delim x) (c :: cs)
  have hfree : ∀ x ∈ (c :: cs).takeWhile (fun x => !isDelim delim x), ¬ isDelim delim x = true := by
    intro x hx
    have := List.mem_takeWhile_imp hx
    simpa using this
  have hne : (c :: cs).takeWhile (fun x => !isDelim delim x) ≠ [] := by
    simp [List.takeWhile_cons, h]
  cases hd : (c :: cs).dropWhile (fun x => !isDelim delim x) with
  | nil =>
    rw [hd, List.append_nil] at hsplit
    rw [hsplit] at hfree hne ⊢
    simp only [List.drop_nil]
    simp only [runs]
    rw [List.splitOnP_eq_single _ _ hfree]
    simp
  | cons sep rest =>
    have hsep : isDelim delim sep = true := by
      have := List.head_dropWhile_not (fun x => !isDelim delim x) (c :: cs) (by rw [hd]; simp)
      simpa [hd] using this
    rw [hd] at hsplit
    conv_lhs => rw [← hsplit]
    simp only [runs, List.drop_succ_cons, List.drop_zero]
    rw [List.splitOnP_first _ _ hfree sep hsep]
    rw [List.filter_cons_of_pos]
    simpa using hne

/-- When `strtok` returns NULL there is no run left. -/
theorem strtok_none (delim : Str) (s : Str) (h : strtok delim s = none) : runs delim s = [] := by
  unfold strtok at h
  split at h
  · next hd =>
    rw [← runs_dropWhile, hd]
    rfl
  · exact absurd h (by simp)

/-- When `strtok` returns a token, it is the first run, the text left holds the
other runs, and the text left is shorter. -/
theorem strtok_some (delim : Str) (s : Str) (tok rest : Str)
    (h : strtok delim s = some (tok, rest)) :
    runs delim s = tok :: runs delim rest ∧ rest.length < s.length := by
  unfold strtok at h
  split at h
  · exact absurd h (by simp)
  · next c cs hd =>
    have hc : isDelim delim c = false := by
      have := List.head_dropWhile_not (isDelim delim) s (by rw [hd]; simp)
      simpa [hd] using this
    simp only [Option.some.injEq, Prod.mk.injEq] at h
    obtain ⟨h1, h2⟩ := h
    constructor
    · rw [← runs_dropWhile, hd, runs_cons_token delim c cs hc, h1, h2]
    · have hlen : (c :: cs).length ≤ s.length := by
        rw [← hd]
        exact (List.dropWhile_sublist _).length_le
      have hdl : ((c :: cs).dropWhile (fun x => !isDelim delim x)).length ≤ (c :: cs).length :=
        (List.dropWhile_sublist _).length_le
      have hlt : ((c :: cs).dropWhile (fun x => !isDelim delim x)).length < (c :: cs).length := by
        simp only [List.dropWhile_cons, hc, Bool.not_false, if_true]
        have := (List.dropWhile_sublist (fun x => !isDelim delim x) (l := cs)).length_le
        simp only [List.length_cons]
        omega
      rw [← h2, List.length_drop]
      omega

/-- The storing loop, given enough fuel, stores exactly the runs that are left
when they fit below index 100, and overflows `args` otherwise. -/
theorem storeTokens_eq (delim : Str) (fuel : Nat) :
    ∀ (s : Str) (i : Nat) (args : List Str), s.length < fuel →
      storeTokens delim fuel (strtok delim s) i args =
        if i + (runs delim s).length < 100 then .ok (args ++ runs delim s)
        else .error Halt.argsOverflow := by
  induction fuel with
  | zero => intro s i args h; exact absurd h (Nat.not_lt_zero _)
  | succ fuel ih =>
    intro s i args hlen
    cases ht : strtok delim s with
    | none =>
      rw [strtok_none delim s ht]
      simp [storeTokens]
    | some p =>
      obtain ⟨tok, rest⟩ := p
      obtain ⟨hr, hl⟩ := strtok_some delim s tok rest ht
      rw [hr]
      simp only [storeTokens, List.length_cons]
      by_cases hi : i < 100
      · rw [if_pos hi, ih rest (i + 1) (args ++ [tok]) (by omega)]
        have e : i + 1 + (runs delim rest).length = i + ((runs delim rest).length + 1) := by omega
        rw [e]
        simp
      · rw [if_neg hi, if_neg (by omega)]

/-- The tokenizing code is total: it yields the runs of non-delimiters when
there are fewer than 100, and overflows `args` otherwise. -/
theorem tokenize_eq (delim : Str) (s : Str) :
    tokenize delim s =
      if (runs delim s).length < 100 then .ok (runs delim s) else .error Halt.argsOverflow := by
  unfold tokenize
  rw [storeTokens_eq delim (s.length + 2) s 0 [] (by omega)]
  simp

/-- A run is not empty and holds no delimiter. -/
theorem runs_mem (delim : Str) (n : Nat) :
    ∀ (s : Str), s.length < n → ∀ t ∈ runs delim s, t ≠ [] ∧ ∀ x ∈ t, isDelim delim x = false := by
  induction n with
  | zero => intro s h; exact absurd h (Nat.not_lt_zero _)
  | succ n ih =>
    intro s hlen t ht
    cases hs : strtok delim s with
    | none =>
      rw [strtok_none delim s hs] at ht
      exact absurd ht (List.not_mem_nil _)
    | some p =>
      obtain ⟨tok, rest⟩ := p
      obtain ⟨hr, hl⟩ := strtok_some delim s tok rest hs
      rw [hr] at ht
      rcases List.mem_cons.mp ht with h | h
      · subst h
        unfold strtok at hs
        split at hs
        · exact absurd hs (by simp)
        · next c cs hd =>
          simp only [Option.some.injEq, Prod.mk.injEq] at hs
          have hc : isDelim delim c = false := by
            have := List.head_dropWhile_not (isDelim delim) s (by rw [hd]; simp)
            simpa [hd] using this
          rw [← hs.1]
          constructor
          · simp [List.takeWhile_cons, hc]
          · intro x hx
            have := List.mem_takeWhile_imp hx
            simpa using this
      · exact ih rest (by omega) t h

/-- Joining such tokens with one delimiter and taking the runs gives them back. -/
theorem runs_intercalate (delim : Str) (sep : Char) (hsep : isDelim delim sep = true)
    (toks : List Str) (h : ∀ t ∈ toks, t ≠ [] ∧ ∀ x ∈ t, isDelim delim x = false) :
    runs delim (List.intercalate [sep] toks) = toks := by
  induction toks with
  | nil => rfl
  | cons t ts ih =>
    have ht := h t (List.mem_cons_self _ _)
    have hfree : ∀ x ∈ t, ¬ isDelim delim x = true := by
      intro x hx; simp [ht.2 x hx]
    have hts := ih (fun u hu => h u (List.mem_cons_of_mem _ hu))
    cases ts with
    | nil =>
      simp only [List.intercalate, List.intersperse_single, List.flatten, List.append_nil, runs]
      rw [List.splitOnP_eq_single _ _ hfree]
      simp [ht.1]
    | cons u us =>
      have e : List.intercalate [sep] (t :: u :: us) = t ++ sep :: List.intercalate [sep] (u :: us) := by
        simp [List.intercalate, List.flatten]
      rw [e]
      unfold runs at hts ⊢
      rw [List.splitOnP_first _ _ hfree sep hsep, List.filter_cons_of_pos (by simpa using ht.1), hts]

/-- C5, as stated, fails: a tab is no separator for the tokenizer, so the line
`a<TAB>b` gives the single token `a<TAB>b` where the runs of non-whitespace
characters are `a` and `b`; and the read loop's tokenizer applied again to the
joined tokens of `a &&` removes a second `&`. -/
theorem tokenizer_tab_not_split :
    (tokenizeLine ['a', '\t', 'b'] = .ok (false, [['a', '\t', 'b']]) ∧
      whitespaceRuns (stripAmp ['a', '\t', 'b']).2 = [['a'], ['b']]) ∧
    (tokenizeLine ['a', ' ', '&', '&'] = .ok (true, [['a'], ['&']]) ∧
      tokenizeLine (joinSpaces [['a'], ['&']]) = .ok (true, [['a']])) := by
  decide

/-- C5, amended: for every line whose text after the removal of one trailing `&`
has fewer than 100 maximal runs of non-space characters, the tokenizer of the
read loop yields the background flag and exactly these runs, in order; and
joining them with single spaces and splitting on spaces again (lines 252-259)
gives the same vector. -/
theorem tokenizer_space_runs (input : Str)
    (hfit : (runs spaceDelim (stripAmp input).2).length < 100) :
    tokenizeLine input = .ok ((stripAmp input).1, runs spaceDelim (stripAmp input).2) ∧
    tokenize spaceDelim (joinSpaces (runs spaceDelim (stripAmp input).2)) =
      .ok (runs spaceDelim (stripAmp input).2) := by
  have hj : runs spaceDelim (joinSpaces (runs spaceDelim (stripAmp input).2)) =
      runs spaceDelim (stripAmp input).2 :=
    runs_intercalate spaceDelim ' ' (by decide) _
      (runs_mem spaceDelim _ _ (Nat.lt_succ_self _))
  constructor
  · unfold tokenizeLine
    rw [tokenize_eq, if_pos hfit]
  · rw [tokenize_eq, hj, if_pos hfit]

/-- C5, amended, at the line `ls  -l &`. -/
theorem tokenizer_space_runs_witness :
    tokenizeLine ['l', 's', ' ', ' ', '-', 'l', ' ', '&'] =
      .ok ((stripAmp ['l', 's', ' ', ' ', '-', 'l', ' ', '&']).1,
        runs spaceDelim (stripAmp ['l', 's', ' ', ' ', '-', 'l', ' ', '&']).2) ∧
    tokenize spaceDelim
      (joinSpaces (runs spaceDelim (stripAmp ['l', 's', ' ', ' ', '-', 'l', ' ', '&']).2)) =
      .ok (runs spaceDelim (stripAmp ['l', 's', ' ', ' ', '-', 'l', ' ', '&']).2) :=
  tokenizer_space_runs ['l', 's', ' ', ' ', '-', 'l', ' ', '&'] (by decide)

/-- C6: a line of one space, and the line `&`, reach the tokenizer, give an
empty argument vector, and `args[0]`, which is NULL, is passed to `strcmp`. -/
theorem blank_line_reads_null_arg0 :
    tokenizeLine [' '] = .ok (false, []) ∧
    dispatch 0 [' ', '\n'] = .error Halt.nullArg0 ∧
    tokenizeLine ['&'] = .ok (true, []) ∧
    dispatch 0 ['&', '\n'] = .error Halt.nullArg0 ∧
    loop_body demoWorld (initial d_tmp) [' ', '\n'] = .error Halt.nullArg0 := by
  decide

/-- C7: the line `exit` followed by a space, and the line `exit now`, have
first token `exit`, yet the loop goes on after `execute_command` has forked a
child for them; only the line that is `exit` and nothing else ends the loop,
with nothing done. The sibling built-ins are matched on `args[0]`: `history`
followed by a space prints the log, and `cd /` followed by a space changes the
directory. -/
theorem exit_space_is_executed :
    (tokenizeLine (chomp l_exit_space) = .ok (false, [s_exit]) ∧
      dispatch 0 l_exit_space = .ok (Branch.exec [s_exit] false) ∧
      loop_body demoWorld (initial d_tmp) l_exit_space =
        .ok (⟨[s_exit ++ [' ']], ⟨d_tmp, []⟩, ⟨0, [], 2⟩,
              [Event.fork 1 [s_exit], Event.wait (some 1)]⟩, true)) ∧
    (tokenizeLine (chomp l_exit_now) = .ok (false, [s_exit, ['n', 'o', 'w']]) ∧
      loop_body demoWorld (initial d_tmp) l_exit_now =
        .ok (⟨[s_exit ++ [' ', 'n', 'o', 'w']], ⟨d_tmp, []⟩, ⟨0, [], 2⟩,
              [Event.fork 1 [s_exit, ['n', 'o', 'w']], Event.wait (some 1)]⟩, true)) ∧
    loop_body demoWorld (initial d_tmp) l_exit = .ok (initial d_tmp, false) ∧
    loop_body demoWorld (initial d_tmp) l_history_space =
      .ok (⟨[s_history ++ [' ']], ⟨d_tmp, []⟩, ⟨0, [], 1⟩,
            [Event.printf "history \n"]⟩, true) ∧
    loop_body demoWorld (initial d_tmp) l_cd_root_space =
      .ok (⟨[s_cd ++ [' ', '/', ' ']], ⟨d_root, d_tmp⟩, ⟨0, [], 1⟩,
            [Event.chdir (some d_root) true]⟩, true) := by
  decide

/-- C8: for the line of a space, `|`, a space and `cat`, which has one `|` and
only a space before it, `handle_pipe` reports no syntax error: it creates the
pipe and forks two children, the first with an empty argument vector. The
line `| cat` is reported. -/
theorem blank_pipe_stage_is_spawned :
    l_blank_pipe_cat.count '|' = 1 ∧
    tokenize spaceNewline [' '] = .ok [] ∧
    handle_pipe demoWorld ⟨0, [], 1⟩ l_blank_pipe_cat =
      .ok (⟨0, [], 3⟩, [Event.pipe, Event.fork 1 [], Event.fork 2 [s_cat], Event.close,
        Event.close, Event.waitpid 1, Event.waitpid 2]) ∧
    handle_pipe demoWorld ⟨0, [], 1⟩ l_pipe_cat =
      .ok (⟨0, [], 1⟩, [Event.printf "Invalid pipe syntax\n"]) := by
  decide

/-- C9: after `sleep 1 &`, the foreground command `sleep 5` returns at time 1,
when `wait(NULL)` has reaped the background child 1; its own child 2 terminates
at time 5 and is still running. With `background` set the call returns at once
without a `wait`. -/
theorem foreground_wait_reaps_other_child :
    main demoWorld (initial d_tmp) [l_sleep1_bg] =
      .ok ⟨[s_sleep ++ [' ', '1', ' ', '&']], ⟨d_tmp, []⟩,
           ⟨0, [⟨1, [s_sleep, ['1']], some 1⟩], 2⟩, [Event.fork 1 [s_sleep, ['1']]]⟩ ∧
    execute_command demoWorld ⟨0, [⟨1, [s_sleep, ['1']], some 1⟩], 2⟩ [s_sleep, ['5']] false =
      .ok (⟨1, [⟨2, [s_sleep, ['5']], some 5⟩], 3⟩, some ⟨2, [s_sleep, ['5']], some 5⟩,
           [Event.fork 2 [s_sleep, ['5']], Event.wait (some 1)]) ∧
    Child.terminated ⟨2, [s_sleep, ['5']], some 5⟩ ⟨1, [⟨2, [s_sleep, ['5']], some 5⟩], 3⟩ = false ∧
    main demoWorld (initial d_tmp) [l_sleep1_bg, l_sleep5] =
      .ok ⟨[s_sleep ++ [' ', '1', ' ', '&'], s_sleep ++ [' ', '5']], ⟨d_tmp, []⟩,
           ⟨1, [⟨2, [s_sleep, ['5']], some 5⟩], 3⟩,
           [Event.fork 1 [s_sleep, ['1']], Event.fork 2 [s_sleep, ['5']], Event.wait (some 1)]⟩ ∧
    execute_command demoWorld ⟨0, [], 1⟩ [s_sleep, ['5']] true =
      .ok (⟨0, [⟨1, [s_sleep, ['5']], some 5⟩], 2⟩, some ⟨1, [s_sleep, ['5']], some 5⟩,
           [Event.fork 1 [s_sleep, ['5']]]) := by
  decide

set_option maxRecDepth 1000000 in
/-- C10: a line of 100 words (200 characters) stores the sentinel at `args[100]`,
and the 101st recorded line is stored at `history[100]`: both writes are past
the end of their arrays. -/
theorem fixed_arrays_overflow :
    l_hundred.length = 201 ∧
    tokenizeLine (chomp l_hundred) = .error Halt.argsOverflow ∧
    dispatch 0 l_hundred = .error Halt.argsOverflow ∧
    (main demoWorld (initial d_tmp) (List.replicate 100 l_cd)).toOption.map
      (fun st => st.history.length) = some 100 ∧
    dispatch 100 l_cd = .error Halt.historyOverflow ∧
    main demoWorld (initial d_tmp) (List.replicate 101 l_cd) = .error Halt.historyOverflow := by
  decide

end ShellC
